import Mathlib

/-!
Verification of the models route module of twig-api (models handler source file)
against its natural-language specification.

The PouchDB store is embedded as a list of stored documents together with a
fresh-id counter; revisions are embedded as natural numbers that the store
bumps on every successful write (the code treats them as opaque
equality-comparable tokens, so only freshness and equality matter).
The handlers are translated branch-for-branch from the promise chains of the
source: each handler takes the store and the request data and returns the
reply it issued (`none` when the chain resolves without ever calling `reply`)
together with the resulting store.
-/

namespace TwigApi

/-- One changelog entry: `{message, user, timestamp}` as built by the handlers. -/
structure ChangelogEntry where
  message : String
  user : String
  timestamp : String
deriving DecidableEq, Repr

/-- One entity definition, after Joi validation of `createModelRequest`:
`class` and `image` required, `color`, `size`, `type` optional
(`size` may be a string or a number). -/
structure EntityDef where
  «class» : String
  color : Option String
  image : String
  size : Option (String ⊕ Nat)
  «type» : Option String
deriving DecidableEq, Repr

/-- The `entities` payload: a mapping from entity-type name to its definition. -/
def Entities := List (String × EntityDef)
deriving DecidableEq, Repr

/-- The `data` field of a stored model document:
`{entities, changelog, name}` as written by `db.post` in `postModelsHandler`. -/
structure DocData where
  entities : Entities
  changelog : List ChangelogEntry
  name : String
deriving DecidableEq, Repr

/-- A document as stored in PouchDB: store-assigned `_id` and `_rev`
plus the application `data`. -/
structure StoredDoc where
  _id : Nat
  _rev : Nat
  data : DocData
deriving DecidableEq, Repr

/-- The per-tenant PouchDB collection: the documents in the store iteration
order reported by `allDocs`, plus a counter supplying fresh internal ids. -/
structure Db where
  docs : List StoredDoc
  nextId : Nat
deriving DecidableEq, Repr

/-- A thrown error object: `status` (absent on untagged errors, hence the
`|| 500` in every catch), `message`, and the `_rev` property that
`putModelHandler` attaches to its Conflict error. -/
structure Err where
  status : Option Nat
  message : String
  _rev : Option Nat
deriving DecidableEq, Repr

/-- `error.status || 500` from the catch blocks. -/
def statusOr500 (e : Err) : Nat := e.status.getD 500

instance {ε α : Type} [DecidableEq ε] [DecidableEq α] : DecidableEq (Except ε α) :=
  fun x y =>
    match x, y with
    | .ok a, .ok b => if h : a = b then .isTrue (by rw [h]) else .isFalse (by simp [h])
    | .error a, .error b => if h : a = b then .isTrue (by rw [h]) else .isFalse (by simp [h])
    | .ok _, .error _ => .isFalse (by simp)
    | .error _, .ok _ => .isFalse (by simp)

/-- `db.post(doc)`: stores a new document under a fresh internal id with
an initial revision. -/
def dbPost (db : Db) (d : DocData) : Db :=
  { docs := db.docs ++ [{ _id := db.nextId, _rev := 1, data := d }]
    nextId := db.nextId + 1 }

/-- `db.put(doc)`: compare-and-swap write; succeeds and bumps the revision
exactly when the supplied revision matches the stored one, otherwise fails
with a 409 conflict (also when no document has that id). -/
def dbPut (db : Db) (doc : StoredDoc) : Except Err Db :=
  match db.docs.find? (fun d => d._id == doc._id) with
  | none => .error { status := some 409, message := "Document update conflict", _rev := none }
  | some stored =>
    if stored._rev = doc._rev then
      .ok { db with
            docs := db.docs.map (fun d =>
              if d._id = doc._id then { doc with _rev := doc._rev + 1 } else d) }
    else
      .error { status := some 409, message := "Document update conflict", _rev := none }

/-- `db.remove(id, rev)`: removes the document with the given id when the
supplied revision matches; 409 on mismatch, 404 when no such document. -/
def dbRemove (db : Db) (id rev : Nat) : Except Err Db :=
  match db.docs.find? (fun d => d._id == id) with
  | none => .error { status := some 404, message := "missing", _rev := none }
  | some stored =>
    if stored._rev = rev then
      .ok { db with docs := db.docs.filter (fun d => d._id != id) }
    else
      .error { status := some 409, message := "Document update conflict", _rev := none }

/-- `getModel(name)`: list all documents, filter by `doc.data.name === name`,
return the first match, otherwise throw a 404 Not Found error. -/
def getModel (db : Db) (name : String) : Except Err StoredDoc :=
  match db.docs.filter (fun row => row.data.name == name) with
  | [] => .error { status := some 404, message := "Not Found", _rev := none }
  | d :: _ => .ok d

/-- A JSON-ish value occurring in a reply payload field. -/
inductive Val where
  | s (v : String)
  | n (v : Nat)
  | ents (v : Entities)
deriving DecidableEq, Repr

/-- The reply a handler issues: a success body (an object, embedded as its
field list in source order) with a status code, a Boom error (with the
optional `payload._rev` that `putModelHandler` attaches), or an empty reply. -/
inductive Reply where
  | ok (fields : List (String × Val)) (code : Nat)
  | boom (status : Nat) (message : String) (payloadRev : Option Nat)
  | empty (code : Nat)
deriving DecidableEq, Repr

/-- The validated payload of `POST /models` (`createModelRequest`). -/
structure CreateModelRequest where
  commitMessage : String
  entities : Entities
  name : String
deriving DecidableEq, Repr

/-- The validated payload of `PUT /models/{name}` (`updateModelRequest`):
`createModelRequest` plus a required `_rev`. -/
structure UpdateModelRequest extends CreateModelRequest where
  _rev : Nat
deriving DecidableEq, Repr

/-- `postModelsHandler`: resolve the requested name; only a 404 from that
lookup leads to `db.post` of a fresh document (one changelog entry), a
re-fetch by name and a 201 reply; any other error is replied as a Boom
error. When the lookup succeeds (the name is already taken) neither catch
runs and the chain resolves without replying at all. -/
def postModelsHandler (db : Db) (payload : CreateModelRequest)
    (userName now : String) (buildUrl : String → String) : Option Reply × Db :=
  match getModel db payload.name with
  | .ok _ => (none, db)
  | .error error =>
    if error.status = some 404 then
      let db2 := dbPost db
        { entities := payload.entities
          changelog := [{ message := payload.commitMessage, user := userName, timestamp := now }]
          name := payload.name }
      match getModel db2 payload.name with
      | .ok newModel =>
        (some (.ok
          [("entities", .ents newModel.data.entities),
           ("_rev", .n newModel._rev),
           ("name", .s newModel.data.name),
           ("url", .s (buildUrl ("/models/" ++ newModel.data.name))),
           ("changelog_url", .s (buildUrl ("/models/" ++ newModel.data.name ++ "/changelog")))]
          201), db2)
      | .error e => (some (.boom (statusOr500 e) e.message none), db2)
    else
      (some (.boom (statusOr500 error) error.message none), db)

/-- `getModelsHandler`: list every document as a `{name, url}` summary. -/
def getModelsHandler (db : Db) (buildUrl : String → String) : Option Reply × Db :=
  (some (.ok (db.docs.map (fun row =>
    (row.data.name, Val.s (buildUrl ("/models/" ++ row.data.name))))) 200), db)

/-- `getModelHandler`: resolve by name and reply with the document view,
or reply with the error as a Boom error. -/
def getModelHandler (db : Db) (paramsName : String)
    (buildUrl : String → String) : Option Reply × Db :=
  match getModel db paramsName with
  | .ok model =>
    (some (.ok
      [("entities", .ents model.data.entities),
       ("name", .s model.data.name),
       ("_rev", .n model._rev),
       ("url", .s (buildUrl ("/models/" ++ model.data.name))),
       ("changelog_url", .s (buildUrl ("/models/" ++ model.data.name ++ "/changelog")))]
      200), db)
  | .error e => (some (.boom (statusOr500 e) e.message none), db)

/-- `putModelHandler`: resolve by the path name; on a matching supplied
revision, overwrite `entities` and `name`, unshift a changelog entry and
`db.put`; then re-fetch by the payload name and reply 200 with the fresh
document. On a revision mismatch, throw a 409 carrying the stored revision,
which the catch copies into the Boom payload. -/
def putModelHandler (db : Db) (paramsName : String) (payload : UpdateModelRequest)
    (userName now : String) (buildUrl : String → String) : Option Reply × Db :=
  match getModel db paramsName with
  | .error error => (some (.boom (statusOr500 error) error.message error._rev), db)
  | .ok model =>
    if model._rev = payload._rev then
      let updated : StoredDoc :=
        { model with data :=
          { entities := payload.entities
            name := payload.name
            changelog :=
              { message := payload.commitMessage, user := userName, timestamp := now }
                :: model.data.changelog } }
      match dbPut db updated with
      | .error e => (some (.boom (statusOr500 e) e.message e._rev), db)
      | .ok db2 =>
        match getModel db2 payload.name with
        | .ok m =>
          (some (.ok
            [("name", .s m.data.name),
             ("_rev", .n m._rev),
             ("entities", .ents m.data.entities),
             ("url", .s (buildUrl ("/models/" ++ m.data.name))),
             ("changelog_url", .s (buildUrl ("/models/" ++ m.data.name ++ "/changelog")))]
            200), db2)
        | .error e => (some (.boom (statusOr500 e) e.message e._rev), db2)
    else
      (some (.boom 409 "Conflict, bad revision number" (some model._rev)), db)

/-- `deleteModelsHandler`: resolve by name, `db.remove(_id, _rev)`, reply
204 with an empty body; errors (404 from the lookup included) become Boom
replies. -/
def deleteModelsHandler (db : Db) (paramsName : String) : Option Reply × Db :=
  match getModel db paramsName with
  | .ok model =>
    match dbRemove db model._id model._rev with
    | .ok db2 => (some (.empty 204), db2)
    | .error e => (some (.boom (statusOr500 e) e.message none), db)
  | .error e => (some (.boom (statusOr500 e) e.message none), db)

/-! ### Twiglets and the Clone Engine, modelled from the spec

The twiglet route/repository source is not among the provided sources (only
its end-to-end tests are), so the Clone Engine and the twiglet update path
are modelled from the specification text. -/

/-- Modelled from the spec: the data carried by a Twiglet document — graph
payload (nodes, links) and a model reference, plus name, description and
changelog (the twiglet repository source is missing; §3 and §4.5 of the
spec describe this payload). Nodes and links are opaque records, embedded
as strings. -/
structure TwigletData where
  name : String
  description : String
  model : String
  nodes : List String
  links : List String
  changelog : List ChangelogEntry
deriving DecidableEq, Repr

/-- A twiglet as stored: store-assigned `_id` and `_rev` plus the data. -/
structure TwigletDoc where
  _id : Nat
  _rev : Nat
  data : TwigletData
deriving DecidableEq, Repr

/-- The per-tenant twiglet collection. -/
structure TwigletDb where
  docs : List TwigletDoc
  nextId : Nat
deriving DecidableEq, Repr

/-- Modelled from the spec: `findByName` for twiglets (§4.4) — resolve a
twiglet by its external name, NotFound when no live document has it. -/
def twigletByName (db : TwigletDb) (name : String) : Except Err TwigletDoc :=
  match db.docs.filter (fun row => row.data.name == name) with
  | [] => .error { status := some 404, message := "Not Found", _rev := none }
  | d :: _ => .ok d

/-- Modelled from the spec: Clone Engine `cloneFrom(sourceName, newName,
newDescription, commitMessage, actor)` (§4.5) — resolve the source by name
(NotFound if absent), fail with Conflict if the new name is taken, and
otherwise create a twiglet copying nodes, links and model reference from the
source while name, description and the single-entry changelog come from the
caller. -/
def cloneFrom (db : TwigletDb)
    (sourceName newName newDescription commitMessage actor now : String) :
    Except Err (TwigletDb × TwigletDoc) :=
  match twigletByName db sourceName with
  | .error e => .error e
  | .ok source =>
    match twigletByName db newName with
    | .ok _ => .error { status := some 409, message := "Conflict", _rev := none }
    | .error _ =>
      let doc : TwigletDoc :=
        { _id := db.nextId, _rev := 1
          data :=
            { name := newName
              description := newDescription
              model := source.data.model
              nodes := source.data.nodes
              links := source.data.links
              changelog := [{ message := commitMessage, user := actor, timestamp := now }] } }
      .ok ({ docs := db.docs ++ [doc], nextId := db.nextId + 1 }, doc)

/-- Modelled from the spec: a twiglet update through the Revision Guard
(§4.2, §4.4) that replaces the graph payload (nodes, links) and prepends a
changelog entry; it succeeds only when the supplied revision matches the
stored one, and the store bumps the revision on the write. -/
def updateTwigletGraph (db : TwigletDb) (name : String) (suppliedRev : Nat)
    (newNodes newLinks : List String) (commitMessage actor now : String) :
    Except Err TwigletDb :=
  match twigletByName db name with
  | .error e => .error e
  | .ok doc =>
    if doc._rev = suppliedRev then
      let updated : TwigletDoc :=
        { doc with
          _rev := doc._rev + 1
          data := { doc.data with
                    nodes := newNodes
                    links := newLinks
                    changelog :=
                      { message := commitMessage, user := actor, timestamp := now }
                        :: doc.data.changelog } }
      .ok { db with docs := db.docs.map (fun d => if d._id = doc._id then updated else d) }
    else
      .error { status := some 409, message := "Conflict", _rev := some doc._rev }

/-! ### Generic lemmas about lists of documents with distinct internal ids -/

/-- In a list whose elements carry pairwise-distinct keys, searching for the
key of a member finds exactly that member. -/
theorem find?_key_of_mem {α : Type} (key : α → Nat) (l : List α) (m : α)
    (hmem : m ∈ l) (hpw : l.Pairwise (fun a b => key a ≠ key b)) :
    l.find? (fun d => key d == key m) = some m := by
  induction l with
  | nil => simp at hmem
  | cons h t ih =>
    rcases List.pairwise_cons.mp hpw with ⟨hh, ht⟩
    rcases List.mem_cons.mp hmem with rfl | hm
    · rw [List.find?_cons_of_pos _ (by simp)]
    · have hne : key h ≠ key m := hh m hm
      rw [List.find?_cons_of_neg _ (by simp [hne])]
      exact ih hm ht

/-- Replacing the unique element that carries a given key, then filtering by
the replacement's name, yields exactly the replacement, provided no other
element carries that name. -/
theorem filter_replace_eq {α : Type} (key : α → Nat) (nameOf : α → String)
    (l : List α) (m newDoc : α) (nm : String)
    (hmem : m ∈ l) (hpw : l.Pairwise (fun a b => key a ≠ key b))
    (hname : ∀ d ∈ l, nameOf d = nm → d = m)
    (hnew : nameOf newDoc = nm) :
    (l.map (fun d => if key d = key m then newDoc else d)).filter
      (fun d => nameOf d == nm) = [newDoc] := by
  induction l with
  | nil => simp at hmem
  | cons h t ih =>
    rcases List.pairwise_cons.mp hpw with ⟨hh, ht⟩
    rcases List.mem_cons.mp hmem with rfl | hm
    · have htail : ∀ x ∈ t.map (fun d => if key d = key m then newDoc else d),
          ¬ (nameOf x == nm) = true := by
        intro x hx hb
        rcases List.mem_map.mp hx with ⟨e, he, rfl⟩
        have hne : ¬ key e = key m := fun hEq => hh e he hEq.symm
        rw [if_neg hne] at hb
        have heq : e = m := hname e (List.mem_cons_of_mem _ he) (by simpa using hb)
        exact hh e he (by rw [heq])
      rw [List.map_cons, if_pos rfl, List.filter_cons, if_pos (by simp [hnew]),
        List.filter_eq_nil_iff.mpr htail]
    · have hhm : key h ≠ key m := hh m hm
      have hhname : ¬ (nameOf h == nm) = true := by
        intro hb
        have heq : h = m := hname h (List.mem_cons_self _ _) (by simpa using hb)
        exact hhm (by rw [heq])
      rw [List.map_cons, if_neg hhm, List.filter_cons, if_neg hhname]
      exact ih hm ht (fun d hd hnd => hname d (List.mem_cons_of_mem _ hd) hnd)

/-- Replacing an element by one with the same key does not change the list
of keys. -/
theorem map_key_replace {α : Type} (key : α → Nat) (l : List α) (k : Nat) (newDoc : α)
    (hid : key newDoc = k) :
    (l.map (fun d => if key d = k then newDoc else d)).map key = l.map key := by
  induction l with
  | nil => rfl
  | cons h t ih =>
    by_cases hc : key h = k
    · simp [hc, hid, ih]
    · simp [hc, ih]

/-- Replacing an element by one with the same key preserves pairwise
distinctness of keys. -/
theorem pairwise_key_replace {α : Type} (key : α → Nat) (l : List α) (k : Nat) (newDoc : α)
    (hid : key newDoc = k)
    (hpw : l.Pairwise (fun a b => key a ≠ key b)) :
    (l.map (fun d => if key d = k then newDoc else d)).Pairwise
      (fun a b => key a ≠ key b) := by
  rw [List.pairwise_map]
  refine hpw.imp ?_
  intro a b hab
  by_cases ha : key a = k <;> by_cases hb : key b = k
  · exact absurd (ha.trans hb.symm) hab
  · simp only [if_pos ha, if_neg hb, hid]
    exact ha ▸ hab
  · simp only [if_neg ha, if_pos hb, hid]
    exact hb ▸ hab
  · simpa [ha, hb] using hab

/-- After removing the only element that carries a given name (identified by
its key), no element with that name remains. -/
theorem filter_name_after_remove {α : Type} (key : α → Nat) (nameOf : α → String)
    (l : List α) (m : α) (nm : String)
    (hfilter : l.filter (fun d => nameOf d == nm) = [m]) :
    (l.filter (fun d => key d != key m)).filter (fun d => nameOf d == nm) = [] := by
  rw [List.filter_eq_nil_iff]
  intro a ha hb
  rcases List.mem_filter.mp ha with ⟨hmem, hkey⟩
  have hmf : a ∈ l.filter (fun d => nameOf d == nm) := List.mem_filter.mpr ⟨hmem, hb⟩
  rw [hfilter] at hmf
  have : a = m := by simpa using hmf
  subst this
  simp at hkey

/-! ### Facts about the store operations and the handlers -/

/-- A successful `getModel` returns a member of the store carrying the
requested name. -/
theorem getModel_ok_mem (db : Db) (name : String) (m : StoredDoc)
    (h : getModel db name = .ok m) : m ∈ db.docs ∧ m.data.name = name := by
  unfold getModel at h
  cases hf : db.docs.filter (fun row => row.data.name == name) with
  | nil => rw [hf] at h; simp at h
  | cons d rest =>
    rw [hf] at h
    simp only [Except.ok.injEq] at h
    subst h
    have hmf : d ∈ db.docs.filter (fun row => row.data.name == name) := by
      rw [hf]; exact List.mem_cons_self _ _
    have hsplit := List.mem_filter.mp hmf
    exact ⟨hsplit.1, by simpa using hsplit.2⟩

/-- `getModel` returns the head of the name filter. -/
theorem getModel_eq_of_filter (db : Db) (name : String) (m : StoredDoc)
    (rest : List StoredDoc)
    (hf : db.docs.filter (fun row => row.data.name == name) = m :: rest) :
    getModel db name = .ok m := by
  unfold getModel; rw [hf]

/-- `getModel` throws 404 Not Found when no document carries the name. -/
theorem getModel_err_of_filter (db : Db) (name : String)
    (hf : db.docs.filter (fun row => row.data.name == name) = []) :
    getModel db name = .error ⟨some 404, "Not Found", none⟩ := by
  unfold getModel; rw [hf]

/-- The document that `putModelHandler` hands to `db.put` once the store has
bumped the revision: same internal id, fresh revision, payload entities and
name, one prepended changelog entry. -/
def putResult (m : StoredDoc) (payload : UpdateModelRequest)
    (userName now : String) : StoredDoc :=
  { _id := m._id
    _rev := m._rev + 1
    data :=
      { entities := payload.entities
        name := payload.name
        changelog :=
          { message := payload.commitMessage, user := userName, timestamp := now }
            :: m.data.changelog } }

/-- `db.put` of a member document with an unchanged revision succeeds and
replaces exactly that document, bumping its revision. -/
theorem dbPut_ok (db : Db) (m : StoredDoc) (newData : DocData)
    (hmem : m ∈ db.docs) (hpw : db.docs.Pairwise (fun a b => a._id ≠ b._id)) :
    dbPut db { m with data := newData } =
      .ok { db with docs := db.docs.map (fun d =>
        if d._id = m._id then { _id := m._id, _rev := m._rev + 1, data := newData } else d) } := by
  have hf : db.docs.find? (fun d => d._id == ({ m with data := newData } : StoredDoc)._id)
      = some m := find?_key_of_mem (fun d => d._id) db.docs m hmem hpw
  unfold dbPut
  rw [hf]
  dsimp only
  rw [if_pos rfl]

/-- `db.remove` of a member document at its stored revision succeeds and
removes exactly the documents carrying that internal id. -/
theorem dbRemove_ok (db : Db) (m : StoredDoc)
    (hmem : m ∈ db.docs) (hpw : db.docs.Pairwise (fun a b => a._id ≠ b._id)) :
    dbRemove db m._id m._rev =
      .ok { db with docs := db.docs.filter (fun d => d._id != m._id) } := by
  have hf : db.docs.find? (fun d => d._id == m._id) = some m :=
    find?_key_of_mem (fun d => d._id) db.docs m hmem hpw
  unfold dbRemove
  rw [hf]
  dsimp only
  rw [if_pos rfl]

/-- On a matching supplied revision, `putModelHandler` leaves the store with
exactly the target document replaced by `putResult`, whatever the re-fetch
then replies. -/
theorem putModelHandler_store (db : Db) (paramsName : String)
    (payload : UpdateModelRequest) (userName now : String)
    (buildUrl : String → String) (m : StoredDoc)
    (hpw : db.docs.Pairwise (fun a b => a._id ≠ b._id))
    (hget : getModel db paramsName = .ok m)
    (hrev : payload._rev = m._rev) :
    (putModelHandler db paramsName payload userName now buildUrl).2 =
      { db with docs := db.docs.map (fun d =>
        if d._id = m._id then putResult m payload userName now else d) } := by
  have hmem := (getModel_ok_mem db paramsName m hget).1
  have hput := dbPut_ok db m
    { entities := payload.entities
      name := payload.name
      changelog :=
        { message := payload.commitMessage, user := userName, timestamp := now }
          :: m.data.changelog } hmem hpw
  unfold putModelHandler
  rw [hget]
  dsimp only
  rw [if_pos hrev.symm, hput]
  dsimp only
  split <;> rfl

/-- The document view that `putModelHandler` replies with on success. -/
def putView (m : StoredDoc) (buildUrl : String → String) : List (String × Val) :=
  [("name", .s m.data.name),
   ("_rev", .n m._rev),
   ("entities", .ents m.data.entities),
   ("url", .s (buildUrl ("/models/" ++ m.data.name))),
   ("changelog_url", .s (buildUrl ("/models/" ++ m.data.name ++ "/changelog")))]

/-- Full success characterization of `putModelHandler`: a matching supplied
revision on a resolved document, whose new name no other document carries,
yields a 200 reply showing the re-fetched written document and a store in
which exactly the target was replaced. -/
theorem putModelHandler_ok (db : Db) (paramsName : String)
    (payload : UpdateModelRequest) (userName now : String)
    (buildUrl : String → String) (m : StoredDoc)
    (hpw : db.docs.Pairwise (fun a b => a._id ≠ b._id))
    (hget : getModel db paramsName = .ok m)
    (hrev : payload._rev = m._rev)
    (hname : ∀ d ∈ db.docs, d.data.name = payload.name → d = m) :
    putModelHandler db paramsName payload userName now buildUrl =
      (some (.ok (putView (putResult m payload userName now) buildUrl) 200),
       { db with docs := db.docs.map (fun d =>
         if d._id = m._id then putResult m payload userName now else d) }) := by
  have hmem := (getModel_ok_mem db paramsName m hget).1
  have hget2 : getModel { db with docs := db.docs.map (fun d =>
      if d._id = m._id then { _id := m._id, _rev := m._rev + 1, data :=
        { entities := payload.entities
          name := payload.name
          changelog :=
            { message := payload.commitMessage, user := userName, timestamp := now }
              :: m.data.changelog } } else d) } payload.name
      = .ok (putResult m payload userName now) :=
    getModel_eq_of_filter _ _ _ []
      (filter_replace_eq (fun d => d._id) (fun d => d.data.name) db.docs m
        (putResult m payload userName now) payload.name hmem hpw hname rfl)
  unfold putModelHandler
  rw [hget]
  dsimp only
  rw [if_pos hrev.symm]
  rw [dbPut_ok db m _ hmem hpw]
  dsimp only
  rw [hget2]
  rfl

/-- One step of the revision-retry loop used to state the changelog-growth
claim: resolve the document, update it supplying the revision just read
(so the revision guard passes), with a fixed name. -/
structure UpdateStep where
  entities : Entities
  commitMessage : String
  user : String
  timestamp : String
deriving DecidableEq, Repr

/-- The changelog entry an update step records. -/
def stepEntry (s : UpdateStep) : ChangelogEntry :=
  { message := s.commitMessage, user := s.user, timestamp := s.timestamp }

/-- Runs a sequence of updates against one document name, each reading the
current document and supplying its stored revision, so that each update
passes the revision guard. -/
def runSuccessfulUpdates (db : Db) (nm : String) : List UpdateStep → Db
  | [] => db
  | s :: rest =>
    match getModel db nm with
    | .ok m =>
      runSuccessfulUpdates
        ((putModelHandler db nm
          { commitMessage := s.commitMessage, entities := s.entities,
            name := nm, _rev := m._rev } s.user s.timestamp id).2) nm rest
    | .error _ => db

/-- Running successful updates against the unique document carrying a name
keeps it unique and prepends exactly the steps' entries, newest first. -/
theorem runUpdates_filter (steps : List UpdateStep) (db : Db) (nm : String)
    (m : StoredDoc)
    (hpw : db.docs.Pairwise (fun a b => a._id ≠ b._id))
    (hfilter : db.docs.filter (fun row => row.data.name == nm) = [m]) :
    ∃ m2,
      (runSuccessfulUpdates db nm steps).docs.filter
        (fun row => row.data.name == nm) = [m2] ∧
      m2.data.changelog = (steps.map stepEntry).reverse ++ m.data.changelog := by
  induction steps generalizing db m with
  | nil => exact ⟨m, hfilter, by simp⟩
  | cons s rest ih =>
    have hget : getModel db nm = .ok m := getModel_eq_of_filter db nm m [] hfilter
    have hmem := (getModel_ok_mem db nm m hget).1
    have hname : ∀ d ∈ db.docs, d.data.name = nm → d = m := by
      intro d hd hdn
      have hdf : d ∈ db.docs.filter (fun row => row.data.name == nm) :=
        List.mem_filter.mpr ⟨hd, by simpa using hdn⟩
      rw [hfilter] at hdf
      simpa using hdf
    have hstore := putModelHandler_store db nm
      { commitMessage := s.commitMessage, entities := s.entities,
        name := nm, _rev := m._rev } s.user s.timestamp id m hpw hget rfl
    have hrun : runSuccessfulUpdates db nm (s :: rest) =
        runSuccessfulUpdates ((putModelHandler db nm
          { commitMessage := s.commitMessage, entities := s.entities,
            name := nm, _rev := m._rev } s.user s.timestamp id).2) nm rest := by
      conv_lhs => rw [runSuccessfulUpdates]
      rw [hget]
    rw [hrun, hstore]
    have hpw2 : (db.docs.map (fun d =>
        if d._id = m._id then putResult m
          { commitMessage := s.commitMessage, entities := s.entities,
            name := nm, _rev := m._rev } s.user s.timestamp else d)).Pairwise
        (fun a b => a._id ≠ b._id) :=
      pairwise_key_replace (fun d => d._id) db.docs m._id
        (putResult m
          { commitMessage := s.commitMessage, entities := s.entities,
            name := nm, _rev := m._rev } s.user s.timestamp) rfl hpw
    have hfilter2 : (db.docs.map (fun d =>
        if d._id = m._id then putResult m
          { commitMessage := s.commitMessage, entities := s.entities,
            name := nm, _rev := m._rev } s.user s.timestamp else d)).filter
        (fun row => row.data.name == nm) = [putResult m
          { commitMessage := s.commitMessage, entities := s.entities,
            name := nm, _rev := m._rev } s.user s.timestamp] :=
      filter_replace_eq (fun d => d._id) (fun d => d.data.name) db.docs m _ nm
        hmem hpw hname rfl
    obtain ⟨m2, hm2, hlog⟩ := ih
      { db with docs := db.docs.map (fun d =>
          if d._id = m._id then putResult m
            { commitMessage := s.commitMessage, entities := s.entities,
              name := nm, _rev := m._rev } s.user s.timestamp else d) }
      (putResult m
        { commitMessage := s.commitMessage, entities := s.entities,
          name := nm, _rev := m._rev } s.user s.timestamp) hpw2 hfilter2
    refine ⟨m2, hm2, ?_⟩
    rw [hlog]
    simp [putResult, stepEntry]

/-- `twigletByName` succeeds exactly on the head of the name filter. -/
theorem twigletByName_ok_iff (db : TwigletDb) (name : String) (m : TwigletDoc) :
    twigletByName db name = .ok m ↔
      ∃ rest, db.docs.filter (fun row => row.data.name == name) = m :: rest := by
  unfold twigletByName
  cases hf : db.docs.filter (fun row => row.data.name == name) with
  | nil =>
    simp only [hf]
    constructor
    · intro h; simp at h
    · rintro ⟨rest, h⟩; simp at h
  | cons d rest =>
    simp only [hf]
    constructor
    · intro h
      simp only [Except.ok.injEq] at h
      exact ⟨rest, by rw [h]⟩
    · rintro ⟨rest2, h⟩
      simp only [List.cons.injEq] at h
      rw [h.1]

/-- `twigletByName` throws 404 when no twiglet carries the name. -/
theorem twigletByName_err_of_filter (db : TwigletDb) (name : String)
    (hf : db.docs.filter (fun row => row.data.name == name) = []) :
    twigletByName db name = .error ⟨some 404, "Not Found", none⟩ := by
  unfold twigletByName; rw [hf]

/-! ### Concrete sample data for the witnesses -/

/-- A sample entity mapping. -/
def exEntities : Entities :=
  [("person",
    { «class» := "person", color := some "#14c", image := "P",
      size := some (Sum.inr 10), «type» := some "node" })]

/-- A second, different entity mapping. -/
def exEntities2 : Entities :=
  [("place", { «class» := "place", color := none, image := "Q",
               size := none, «type» := none })]

/-- A stored model named "dup". -/
def exDoc : StoredDoc :=
  { _id := 0, _rev := 1
    data :=
      { entities := exEntities
        changelog := [{ message := "created", user := "alice",
                        timestamp := "2017-01-01T00:00:00.000Z" }]
        name := "dup" } }

/-- A store holding only `exDoc`. -/
def exDb : Db := { docs := [exDoc], nextId := 1 }

/-- A second stored model also named "dup" (the documented create race). -/
def exDocDup : StoredDoc :=
  { _id := 1, _rev := 1
    data :=
      { entities := exEntities2
        changelog := [{ message := "created twice", user := "carol",
                        timestamp := "2017-01-03T00:00:00.000Z" }]
        name := "dup" } }

/-- A store holding two live documents named "dup". -/
def exDbDup : Db := { docs := [exDoc, exDocDup], nextId := 2 }

/-- An empty store. -/
def emptyDb : Db := { docs := [], nextId := 0 }

/-- A stored model named "x". -/
def xDoc : StoredDoc :=
  { _id := 3, _rev := 2
    data :=
      { entities := exEntities
        changelog := [{ message := "created", user := "alice",
                        timestamp := "2017-01-01T00:00:00.000Z" }]
        name := "x" } }

/-- A store holding only `xDoc`. -/
def xDb : Db := { docs := [xDoc], nextId := 4 }

/-! ### The claims -/

/-- Claim C1 (code bug): per the spec, a create request whose name is
already stored should fail with Conflict (409) and write nothing. The code
writes nothing, but it also never produces the 409: when the existence
lookup resolves, the resolved value passes both catch blocks of
`postModelsHandler` and the chain finishes without `reply` ever being
called. Evaluated on a concrete store holding a live document named "dup":
the handler issues no reply at all and returns the store unchanged. -/
theorem postModel_duplicate_name_never_replies :
    postModelsHandler exDb
      { commitMessage := "again", entities := exEntities2, name := "dup" }
      "bob" "2017-01-02T00:00:00.000Z" id = (none, exDb) := by
  decide

/-- Claim C2: an update supplying a revision different from the stored one
fails with Conflict (409), the failure payload carries the current stored
revision, and the store — hence the stored document's payload, name,
changelog and revision — is unchanged. -/
theorem putModel_stale_revision_conflict (db : Db) (paramsName : String)
    (payload : UpdateModelRequest) (userName now : String)
    (buildUrl : String → String) (m : StoredDoc)
    (hget : getModel db paramsName = .ok m)
    (hrev : payload._rev ≠ m._rev) :
    putModelHandler db paramsName payload userName now buildUrl =
      (some (.boom 409 "Conflict, bad revision number" (some m._rev)), db) := by
  unfold putModelHandler
  rw [hget]
  dsimp only
  rw [if_neg (fun h => hrev h.symm)]

/-- Witness for C2 at a concrete store: supplying revision 5 against stored
revision 1 yields the 409 reply carrying revision 1 and leaves the store
unchanged. -/
theorem putModel_stale_revision_conflict_witness :
    getModel exDb "dup" = .ok exDoc ∧ (5 : Nat) ≠ exDoc._rev ∧
    putModelHandler exDb "dup"
      { commitMessage := "m", entities := exEntities2, name := "dup", _rev := 5 }
      "bob" "t" id =
      (some (.boom 409 "Conflict, bad revision number" (some exDoc._rev)), exDb) :=
  ⟨by decide, by decide,
   putModel_stale_revision_conflict exDb "dup"
     { commitMessage := "m", entities := exEntities2, name := "dup", _rev := 5 }
     "bob" "t" id exDoc (by decide) (by decide)⟩

/-- Claim C10: when two or more live documents carry the same name (the
documented create race), lookup by that name deterministically returns the
first match in the store's iteration order. -/
theorem getModel_first_of_duplicates (db : Db) (n : String) (m m2 : StoredDoc)
    (rest : List StoredDoc)
    (hdup : db.docs.filter (fun row => row.data.name == n) = m :: m2 :: rest) :
    getModel db n = .ok m :=
  getModel_eq_of_filter db n m (m2 :: rest) hdup

/-- Witness for C10: a store with two documents named "dup"; lookup returns
the first. -/
theorem getModel_first_of_duplicates_witness :
    exDbDup.docs.filter (fun row => row.data.name == "dup") = exDoc :: exDocDup :: [] ∧
    getModel exDbDup "dup" = .ok exDoc :=
  ⟨by decide, getModel_first_of_duplicates exDbDup "dup" exDoc exDocDup [] (by decide)⟩

/-- Claim C6: lookup of a name with no matching live document fails with
NotFound (404), and delete of such a name also fails with NotFound (404);
moreover, after a successful delete of the unique document carrying a name,
a subsequent get of that name fails with NotFound and a subsequent delete
also fails with NotFound (a 404 Boom reply, not a Conflict). -/
theorem notFound_and_delete_terminality (db : Db) (x : String) :
    (db.docs.filter (fun row => row.data.name == x) = [] →
      getModel db x = .error ⟨some 404, "Not Found", none⟩ ∧
      deleteModelsHandler db x = (some (.boom 404 "Not Found" none), db)) ∧
    (∀ m, db.docs.Pairwise (fun a b => a._id ≠ b._id) →
      db.docs.filter (fun row => row.data.name == x) = [m] →
      ∃ db2,
        deleteModelsHandler db x = (some (.empty 204), db2) ∧
        getModel db2 x = .error ⟨some 404, "Not Found", none⟩ ∧
        deleteModelsHandler db2 x = (some (.boom 404 "Not Found" none), db2)) := by
  constructor
  · intro habs
    have hg := getModel_err_of_filter db x habs
    refine ⟨hg, ?_⟩
    unfold deleteModelsHandler
    rw [hg]
    rfl
  · intro m hpw hone
    have hg := getModel_eq_of_filter db x m [] hone
    have hmem := (getModel_ok_mem db x m hg).1
    have hrm := dbRemove_ok db m hmem hpw
    have habs2 : ({ db with docs := db.docs.filter (fun d => d._id != m._id) } : Db).docs.filter
        (fun row => row.data.name == x) = [] :=
      filter_name_after_remove (fun d => d._id) (fun d => d.data.name) db.docs m x hone
    refine ⟨{ db with docs := db.docs.filter (fun d => d._id != m._id) }, ?_, ?_, ?_⟩
    · unfold deleteModelsHandler
      rw [hg]
      dsimp only
      rw [hrm]
    · exact getModel_err_of_filter _ x habs2
    · have hg2 := getModel_err_of_filter
        { db with docs := db.docs.filter (fun d => d._id != m._id) } x habs2
      unfold deleteModelsHandler
      rw [hg2]
      rfl

/-- Witness for C6: the empty store for the NotFound part, and a one-document
store named "x" for the delete-then-get/delete part. -/
theorem notFound_and_delete_terminality_witness :
    (emptyDb.docs.filter (fun row => row.data.name == "x") = [] ∧
      getModel emptyDb "x" = .error ⟨some 404, "Not Found", none⟩ ∧
      deleteModelsHandler emptyDb "x" = (some (.boom 404 "Not Found" none), emptyDb)) ∧
    (xDb.docs.Pairwise (fun a b => a._id ≠ b._id) ∧
      xDb.docs.filter (fun row => row.data.name == "x") = [xDoc] ∧
      ∃ db2,
        deleteModelsHandler xDb "x" = (some (.empty 204), db2) ∧
        getModel db2 "x" = .error ⟨some 404, "Not Found", none⟩ ∧
        deleteModelsHandler db2 "x" = (some (.boom 404 "Not Found" none), db2)) :=
  ⟨⟨by decide,
    (notFound_and_delete_terminality emptyDb "x").1 (by decide)⟩,
   ⟨by decide, by decide,
    (notFound_and_delete_terminality xDb "x").2 xDoc (by decide) (by decide)⟩⟩

/-- Claim C3: an update supplying the stored revision succeeds with 200,
replaces the entities and the name with the supplied values, and the reply
shows the freshly re-fetched stored document, whose revision differs from
the supplied one. (The re-fetch resolves the payload's name, so the claim
is stated for a store in which no other document carries that name.) -/
theorem putModel_matching_revision_succeeds (db : Db) (paramsName : String)
    (payload : UpdateModelRequest) (userName now : String)
    (buildUrl : String → String) (m : StoredDoc)
    (hpw : db.docs.Pairwise (fun a b => a._id ≠ b._id))
    (hget : getModel db paramsName = .ok m)
    (hrev : payload._rev = m._rev)
    (hname : ∀ d ∈ db.docs, d.data.name = payload.name → d = m) :
    ∃ db2 m2,
      putModelHandler db paramsName payload userName now buildUrl =
        (some (.ok
          [("name", .s m2.data.name),
           ("_rev", .n m2._rev),
           ("entities", .ents m2.data.entities),
           ("url", .s (buildUrl ("/models/" ++ m2.data.name))),
           ("changelog_url", .s (buildUrl ("/models/" ++ m2.data.name ++ "/changelog")))]
          200), db2) ∧
      getModel db2 payload.name = .ok m2 ∧
      m2._rev ≠ payload._rev ∧
      m2.data.entities = payload.entities ∧
      m2.data.name = payload.name ∧
      m2.data.changelog =
        { message := payload.commitMessage, user := userName, timestamp := now }
          :: m.data.changelog := by
  have hmem := (getModel_ok_mem db paramsName m hget).1
  have hget2 : getModel { db with docs := db.docs.map (fun d =>
      if d._id = m._id then putResult m payload userName now else d) } payload.name
      = .ok (putResult m payload userName now) :=
    getModel_eq_of_filter _ _ _ []
      (filter_replace_eq (fun d => d._id) (fun d => d.data.name) db.docs m
        (putResult m payload userName now) payload.name hmem hpw hname rfl)
  refine ⟨_, putResult m payload userName now,
    putModelHandler_ok db paramsName payload userName now buildUrl m hpw hget hrev hname,
    hget2, ?_, rfl, rfl, rfl⟩
  show m._rev + 1 ≠ payload._rev
  rw [hrev]
  exact Nat.succ_ne_self m._rev

/-- Witness for C3: updating the "dup" document at its stored revision 1
renames it to "renamed", and the reply shows revision 2. -/
theorem putModel_matching_revision_succeeds_witness :
    getModel exDb "dup" = .ok exDoc ∧ (1 : Nat) = exDoc._rev ∧
    (∃ db2 m2,
      putModelHandler exDb "dup"
        { commitMessage := "renaming", entities := exEntities2,
          name := "renamed", _rev := 1 } "bob" "t1" id =
        (some (.ok
          [("name", .s m2.data.name),
           ("_rev", .n m2._rev),
           ("entities", .ents m2.data.entities),
           ("url", .s (id ("/models/" ++ m2.data.name))),
           ("changelog_url", .s (id ("/models/" ++ m2.data.name ++ "/changelog")))]
          200), db2) ∧
      getModel db2 "renamed" = .ok m2 ∧
      m2._rev ≠ 1 ∧
      m2.data.entities = exEntities2 ∧
      m2.data.name = "renamed" ∧
      m2.data.changelog =
        { message := "renaming", user := "bob", timestamp := "t1" }
          :: exDoc.data.changelog) :=
  ⟨by decide, by decide,
   putModel_matching_revision_succeeds exDb "dup"
     { commitMessage := "renaming", entities := exEntities2,
       name := "renamed", _rev := 1 } "bob" "t1" id exDoc
     (by decide) (by decide) (by decide) (by decide)⟩

/-- Claim C9: a successful update keeps the store-assigned internal id: the
list of internal ids in the store is unchanged and the written document sits
under the target's `_id` — even when the update changes the name. -/
theorem putModel_preserves_internal_id (db : Db) (paramsName : String)
    (payload : UpdateModelRequest) (userName now : String)
    (buildUrl : String → String) (m : StoredDoc)
    (hpw : db.docs.Pairwise (fun a b => a._id ≠ b._id))
    (hget : getModel db paramsName = .ok m)
    (hrev : payload._rev = m._rev) :
    ((putModelHandler db paramsName payload userName now buildUrl).2.docs.map
        (fun d => d._id) = db.docs.map (fun d => d._id)) ∧
    putResult m payload userName now ∈
      (putModelHandler db paramsName payload userName now buildUrl).2.docs ∧
    (putResult m payload userName now)._id = m._id ∧
    (putResult m payload userName now).data.name = payload.name := by
  have hmem := (getModel_ok_mem db paramsName m hget).1
  rw [putModelHandler_store db paramsName payload userName now buildUrl m hpw hget hrev]
  refine ⟨?_, ?_, rfl, rfl⟩
  · exact map_key_replace (fun d => d._id) db.docs m._id
      (putResult m payload userName now) rfl
  · have hin := List.mem_map_of_mem
      (fun d => if d._id = m._id then putResult m payload userName now else d) hmem
    simpa using hin

/-- Witness for C9: the rename update of the "dup" document keeps internal
id 0. -/
theorem putModel_preserves_internal_id_witness :
    exDb.docs.Pairwise (fun a b => a._id ≠ b._id) ∧
    getModel exDb "dup" = .ok exDoc ∧ (1 : Nat) = exDoc._rev ∧
    (((putModelHandler exDb "dup"
        { commitMessage := "renaming", entities := exEntities2,
          name := "renamed", _rev := 1 } "bob" "t1" id).2.docs.map
        (fun d => d._id) = exDb.docs.map (fun d => d._id)) ∧
      putResult exDoc
        { commitMessage := "renaming", entities := exEntities2,
          name := "renamed", _rev := 1 } "bob" "t1" ∈
        (putModelHandler exDb "dup"
          { commitMessage := "renaming", entities := exEntities2,
            name := "renamed", _rev := 1 } "bob" "t1" id).2.docs ∧
      (putResult exDoc
        { commitMessage := "renaming", entities := exEntities2,
          name := "renamed", _rev := 1 } "bob" "t1")._id = exDoc._id ∧
      (putResult exDoc
        { commitMessage := "renaming", entities := exEntities2,
          name := "renamed", _rev := 1 } "bob" "t1").data.name = "renamed") :=
  ⟨by decide, by decide, by decide,
   putModel_preserves_internal_id exDb "dup"
     { commitMessage := "renaming", entities := exEntities2,
       name := "renamed", _rev := 1 } "bob" "t1" id exDoc
     (by decide) (by decide) (by decide)⟩

/-- Claim C5: creating a model whose name is free succeeds with 201 showing
the stored document, and fetching by that name returns a document whose
entities equal the supplied payload and whose changelog is exactly one
entry carrying the supplied commit message. -/
theorem create_then_get_roundtrip (db : Db) (payload : CreateModelRequest)
    (userName now : String) (buildUrl : String → String)
    (habsent : db.docs.filter (fun row => row.data.name == payload.name) = []) :
    ∃ db2 newDoc,
      postModelsHandler db payload userName now buildUrl =
        (some (.ok
          [("entities", .ents newDoc.data.entities),
           ("_rev", .n newDoc._rev),
           ("name", .s newDoc.data.name),
           ("url", .s (buildUrl ("/models/" ++ newDoc.data.name))),
           ("changelog_url", .s (buildUrl ("/models/" ++ newDoc.data.name ++ "/changelog")))]
          201), db2) ∧
      getModel db2 payload.name = .ok newDoc ∧
      newDoc.data.entities = payload.entities ∧
      newDoc.data.changelog =
        [{ message := payload.commitMessage, user := userName, timestamp := now }] ∧
      getModelHandler db2 payload.name buildUrl =
        (some (.ok
          [("entities", .ents newDoc.data.entities),
           ("name", .s newDoc.data.name),
           ("_rev", .n newDoc._rev),
           ("url", .s (buildUrl ("/models/" ++ newDoc.data.name))),
           ("changelog_url", .s (buildUrl ("/models/" ++ newDoc.data.name ++ "/changelog")))]
          200), db2) := by
  have hget0 := getModel_err_of_filter db payload.name habsent
  have hfilter2 : (dbPost db
      { entities := payload.entities
        changelog := [{ message := payload.commitMessage, user := userName, timestamp := now }]
        name := payload.name }).docs.filter (fun row => row.data.name == payload.name)
      = [{ _id := db.nextId, _rev := 1
           data :=
             { entities := payload.entities
               changelog := [{ message := payload.commitMessage, user := userName, timestamp := now }]
               name := payload.name } }] := by
    unfold dbPost
    rw [List.filter_append, habsent]
    simp
  have hget2 := getModel_eq_of_filter _ payload.name _ [] hfilter2
  refine ⟨_, _, ?_, hget2, rfl, rfl, ?_⟩
  · unfold postModelsHandler
    rw [hget0]
    dsimp only
    rw [if_pos rfl]
    rw [hget2]
  · unfold getModelHandler
    rw [hget2]

/-- Witness for C5: creating "fresh" in the empty store and fetching it
back. -/
theorem create_then_get_roundtrip_witness :
    emptyDb.docs.filter (fun row => row.data.name == "fresh") = [] ∧
    (∃ db2 newDoc,
      postModelsHandler emptyDb
        { commitMessage := "first", entities := exEntities, name := "fresh" }
        "alice" "t0" id =
        (some (.ok
          [("entities", .ents newDoc.data.entities),
           ("_rev", .n newDoc._rev),
           ("name", .s newDoc.data.name),
           ("url", .s (id ("/models/" ++ newDoc.data.name))),
           ("changelog_url", .s (id ("/models/" ++ newDoc.data.name ++ "/changelog")))]
          201), db2) ∧
      getModel db2 "fresh" = .ok newDoc ∧
      newDoc.data.entities = exEntities ∧
      newDoc.data.changelog = [{ message := "first", user := "alice", timestamp := "t0" }] ∧
      getModelHandler db2 "fresh" id =
        (some (.ok
          [("entities", .ents newDoc.data.entities),
           ("name", .s newDoc.data.name),
           ("_rev", .n newDoc._rev),
           ("url", .s (id ("/models/" ++ newDoc.data.name))),
           ("changelog_url", .s (id ("/models/" ++ newDoc.data.name ++ "/changelog")))]
          200), db2)) :=
  ⟨by decide,
   create_then_get_roundtrip emptyDb
     { commitMessage := "first", entities := exEntities, name := "fresh" }
     "alice" "t0" id (by decide)⟩

/-- Claim C4: creation produces a changelog of exactly one entry, and each
successful update prepends exactly one entry, leaving the existing entries
untouched: after N successful updates the changelog is the N step entries
newest-first followed by the creation entry, of length N + 1. -/
theorem create_then_updates_changelog (db : Db) (payload : CreateModelRequest)
    (userName now : String) (buildUrl : String → String) (steps : List UpdateStep)
    (hpw : db.docs.Pairwise (fun a b => a._id ≠ b._id))
    (hfresh : ∀ d ∈ db.docs, d._id < db.nextId)
    (habsent : db.docs.filter (fun row => row.data.name == payload.name) = []) :
    ∃ m0 m2,
      (postModelsHandler db payload userName now buildUrl).2.docs.filter
        (fun row => row.data.name == payload.name) = [m0] ∧
      m0.data.changelog =
        [{ message := payload.commitMessage, user := userName, timestamp := now }] ∧
      (runSuccessfulUpdates (postModelsHandler db payload userName now buildUrl).2
        payload.name steps).docs.filter (fun row => row.data.name == payload.name) = [m2] ∧
      m2.data.changelog = (steps.map stepEntry).reverse
        ++ [{ message := payload.commitMessage, user := userName, timestamp := now }] ∧
      m2.data.changelog.length = steps.length + 1 := by
  have hget0 := getModel_err_of_filter db payload.name habsent
  have hpost : (postModelsHandler db payload userName now buildUrl).2 = dbPost db
      { entities := payload.entities
        changelog := [{ message := payload.commitMessage, user := userName, timestamp := now }]
        name := payload.name } := by
    unfold postModelsHandler
    rw [hget0]
    dsimp only
    rw [if_pos rfl]
    split <;> rfl
  have hfilter2 : (dbPost db
      { entities := payload.entities
        changelog := [{ message := payload.commitMessage, user := userName, timestamp := now }]
        name := payload.name }).docs.filter (fun row => row.data.name == payload.name)
      = [{ _id := db.nextId, _rev := 1
           data :=
             { entities := payload.entities
               changelog := [{ message := payload.commitMessage, user := userName, timestamp := now }]
               name := payload.name } }] := by
    unfold dbPost
    rw [List.filter_append, habsent]
    simp
  have hpw2 : (dbPost db
      { entities := payload.entities
        changelog := [{ message := payload.commitMessage, user := userName, timestamp := now }]
        name := payload.name }).docs.Pairwise (fun a b => a._id ≠ b._id) := by
    unfold dbPost
    rw [List.pairwise_append]
    refine ⟨hpw, by simp, ?_⟩
    intro a ha b hb
    rcases List.mem_singleton.mp hb with rfl
    exact Nat.ne_of_lt (hfresh a ha)
  obtain ⟨m2, hm2, hlog⟩ := runUpdates_filter steps _ payload.name _ hpw2 hfilter2
  refine ⟨{ _id := db.nextId, _rev := 1
            data :=
              { entities := payload.entities
                changelog := [{ message := payload.commitMessage, user := userName, timestamp := now }]
                name := payload.name } }, m2, ?_, rfl, ?_, ?_, ?_⟩
  · rw [hpost]; exact hfilter2
  · rw [hpost]; exact hm2
  · rw [hlog]
  · rw [hlog]; simp

/-- Witness for C4: creating "doc" in the empty store then running two
successful updates; the changelog ends up with three entries, newest
first. -/
theorem create_then_updates_changelog_witness :
    emptyDb.docs.Pairwise (fun a b => a._id ≠ b._id) ∧
    (∀ d ∈ emptyDb.docs, d._id < emptyDb.nextId) ∧
    emptyDb.docs.filter (fun row => row.data.name == "doc") = [] ∧
    (∃ m0 m2,
      (postModelsHandler emptyDb
        { commitMessage := "created", entities := exEntities, name := "doc" }
        "alice" "t0" id).2.docs.filter (fun row => row.data.name == "doc") = [m0] ∧
      m0.data.changelog = [{ message := "created", user := "alice", timestamp := "t0" }] ∧
      (runSuccessfulUpdates (postModelsHandler emptyDb
        { commitMessage := "created", entities := exEntities, name := "doc" }
        "alice" "t0" id).2 "doc"
        [{ entities := exEntities2, commitMessage := "one", user := "bob", timestamp := "t1" },
         { entities := exEntities, commitMessage := "two", user := "carol", timestamp := "t2" }]).docs.filter
        (fun row => row.data.name == "doc") = [m2] ∧
      m2.data.changelog =
        ([{ entities := exEntities2, commitMessage := "one", user := "bob", timestamp := "t1" },
          { entities := exEntities, commitMessage := "two", user := "carol", timestamp := "t2" }].map
            stepEntry).reverse
          ++ [{ message := "created", user := "alice", timestamp := "t0" }] ∧
      m2.data.changelog.length =
        [({ entities := exEntities2, commitMessage := "one", user := "bob", timestamp := "t1" } : UpdateStep),
         { entities := exEntities, commitMessage := "two", user := "carol", timestamp := "t2" }].length + 1) :=
  ⟨by decide, by decide, by decide,
   create_then_updates_changelog emptyDb
     { commitMessage := "created", entities := exEntities, name := "doc" }
     "alice" "t0" id
     [{ entities := exEntities2, commitMessage := "one", user := "bob", timestamp := "t1" },
      { entities := exEntities, commitMessage := "two", user := "carol", timestamp := "t2" }]
     (by decide) (by decide) (by decide)⟩

/-- Claim C8: every successful document-view reply — of create, get-by-name
and update — carries the `entities`, `_rev`, `name`, `url` and
`changelog_url` fields, and never carries a `commitMessage` field. -/
theorem document_view_fields :
    (∀ (db : Db) (payload : CreateModelRequest) (userName now : String)
        (buildUrl : String → String) (fields : List (String × Val)) (code : Nat) (db2 : Db),
      postModelsHandler db payload userName now buildUrl = (some (.ok fields code), db2) →
      "entities" ∈ fields.map Prod.fst ∧ "_rev" ∈ fields.map Prod.fst ∧
      "name" ∈ fields.map Prod.fst ∧ "url" ∈ fields.map Prod.fst ∧
      "changelog_url" ∈ fields.map Prod.fst ∧ "commitMessage" ∉ fields.map Prod.fst) ∧
    (∀ (db : Db) (paramsName : String) (buildUrl : String → String)
        (fields : List (String × Val)) (code : Nat) (db2 : Db),
      getModelHandler db paramsName buildUrl = (some (.ok fields code), db2) →
      "entities" ∈ fields.map Prod.fst ∧ "_rev" ∈ fields.map Prod.fst ∧
      "name" ∈ fields.map Prod.fst ∧ "url" ∈ fields.map Prod.fst ∧
      "changelog_url" ∈ fields.map Prod.fst ∧ "commitMessage" ∉ fields.map Prod.fst) ∧
    (∀ (db : Db) (paramsName : String) (payload : UpdateModelRequest)
        (userName now : String) (buildUrl : String → String)
        (fields : List (String × Val)) (code : Nat) (db2 : Db),
      putModelHandler db paramsName payload userName now buildUrl = (some (.ok fields code), db2) →
      "entities" ∈ fields.map Prod.fst ∧ "_rev" ∈ fields.map Prod.fst ∧
      "name" ∈ fields.map Prod.fst ∧ "url" ∈ fields.map Prod.fst ∧
      "changelog_url" ∈ fields.map Prod.fst ∧ "commitMessage" ∉ fields.map Prod.fst) := by
  refine ⟨?_, ?_, ?_⟩
  · intro db payload userName now buildUrl fields code db2 h
    unfold postModelsHandler at h
    split at h
    · simp at h
    · split at h
      · dsimp only at h
        split at h
        · simp only [Prod.mk.injEq, Option.some.injEq, Reply.ok.injEq] at h
          obtain ⟨⟨hf, _⟩, _⟩ := h
          subst hf
          simp
        · simp at h
      · simp at h
  · intro db paramsName buildUrl fields code db2 h
    unfold getModelHandler at h
    split at h
    · simp only [Prod.mk.injEq, Option.some.injEq, Reply.ok.injEq] at h
      obtain ⟨⟨hf, _⟩, _⟩ := h
      subst hf
      simp
    · simp at h
  · intro db paramsName payload userName now buildUrl fields code db2 h
    unfold putModelHandler at h
    split at h
    · simp at h
    · split at h
      · dsimp only at h
        split at h
        · simp at h
        · split at h
          · simp only [Prod.mk.injEq, Option.some.injEq, Reply.ok.injEq] at h
            obtain ⟨⟨hf, _⟩, _⟩ := h
            subst hf
            simp
          · simp at h
      · simp at h

/-- Witness for C8: the 201 create reply in the empty store carries exactly
the view fields and no commitMessage. -/
theorem document_view_fields_witness :
    postModelsHandler emptyDb
      { commitMessage := "first", entities := exEntities, name := "fresh" }
      "alice" "t0" id =
      (some (.ok
        [("entities", .ents exEntities),
         ("_rev", .n 1),
         ("name", .s "fresh"),
         ("url", .s "/models/fresh"),
         ("changelog_url", .s "/models/fresh/changelog")] 201),
       dbPost emptyDb
         { entities := exEntities
           changelog := [{ message := "first", user := "alice", timestamp := "t0" }]
           name := "fresh" }) ∧
    ("entities" ∈ (["entities", "_rev", "name", "url", "changelog_url"] : List String) ∧
     "_rev" ∈ (["entities", "_rev", "name", "url", "changelog_url"] : List String) ∧
     "name" ∈ (["entities", "_rev", "name", "url", "changelog_url"] : List String) ∧
     "url" ∈ (["entities", "_rev", "name", "url", "changelog_url"] : List String) ∧
     "changelog_url" ∈ (["entities", "_rev", "name", "url", "changelog_url"] : List String) ∧
     "commitMessage" ∉ (["entities", "_rev", "name", "url", "changelog_url"] : List String)) :=
  ⟨by decide,
   document_view_fields.1 emptyDb
     { commitMessage := "first", entities := exEntities, name := "fresh" }
     "alice" "t0" id
     [("entities", .ents exEntities),
      ("_rev", .n 1),
      ("name", .s "fresh"),
      ("url", .s "/models/fresh"),
      ("changelog_url", .s "/models/fresh/changelog")] 201
     (dbPost emptyDb
       { entities := exEntities
         changelog := [{ message := "first", user := "alice", timestamp := "t0" }]
         name := "fresh" }) (by decide)⟩

/-- Claim C7 (Clone Engine, modelled from the spec, §4.5): the clone copies
nodes, links and the model reference from the source at clone time, takes
the supplied name and description rather than the source's, and shares no
state with the source afterwards: any subsequent guarded update replacing
the source's graph succeeds and leaves the clone's stored document — nodes
and links included — unchanged. -/
theorem clone_isolation (db : TwigletDb)
    (sourceName newName newDescription commitMessage actor now : String)
    (src : TwigletDoc)
    (hsrc : twigletByName db sourceName = .ok src)
    (habsent : db.docs.filter (fun row => row.data.name == newName) = [])
    (hfresh : ∀ d ∈ db.docs, d._id < db.nextId) :
    ∃ db2 clone,
      cloneFrom db sourceName newName newDescription commitMessage actor now
        = .ok (db2, clone) ∧
      clone.data.nodes = src.data.nodes ∧
      clone.data.links = src.data.links ∧
      clone.data.model = src.data.model ∧
      clone.data.name = newName ∧
      clone.data.description = newDescription ∧
      ∀ newNodes newLinks msg2 act2 t2,
        ∃ db3,
          updateTwigletGraph db2 sourceName src._rev newNodes newLinks msg2 act2 t2
            = .ok db3 ∧
          twigletByName db3 newName = .ok clone := by
  obtain ⟨rest, hsf⟩ := (twigletByName_ok_iff db sourceName src).mp hsrc
  have hsrc_in_f : src ∈ db.docs.filter (fun row => row.data.name == sourceName) := by
    rw [hsf]; exact List.mem_cons_self _ _
  have hsm : src ∈ db.docs := (List.mem_filter.mp hsrc_in_f).1
  have hsname : src.data.name = sourceName := by
    simpa using (List.mem_filter.mp hsrc_in_f).2
  have hnn : src.data.name ≠ newName := by
    intro h
    have hmf : src ∈ db.docs.filter (fun row => row.data.name == newName) :=
      List.mem_filter.mpr ⟨hsm, by simp [h]⟩
    rw [habsent] at hmf
    simp at hmf
  have h404 := twigletByName_err_of_filter db newName habsent
  have hclone : cloneFrom db sourceName newName newDescription commitMessage actor now
      = .ok ({ docs := db.docs ++
                         [{ _id := db.nextId, _rev := 1,
                            data :=
                              { name := newName, description := newDescription,
                                model := src.data.model, nodes := src.data.nodes,
                                links := src.data.links,
                                changelog := [{ message := commitMessage, user := actor,
                                                timestamp := now }] } }],
               nextId := db.nextId + 1 },
        { _id := db.nextId, _rev := 1,
          data :=
            { name := newName, description := newDescription,
              model := src.data.model, nodes := src.data.nodes, links := src.data.links,
              changelog := [{ message := commitMessage, user := actor, timestamp := now }] } }) := by
    unfold cloneFrom
    rw [hsrc]
    dsimp only
    rw [h404]
  refine ⟨_, _, hclone, rfl, rfl, rfl, rfl, rfl, ?_⟩
  intro newNodes newLinks msg2 act2 t2
  have hns : ¬ (newName = sourceName) := fun h => hnn (hsname.trans h.symm)
  have hf2 : (db.docs ++
      [({ _id := db.nextId, _rev := 1,
          data :=
            { name := newName, description := newDescription,
              model := src.data.model, nodes := src.data.nodes, links := src.data.links,
              changelog := [{ message := commitMessage, user := actor,
                              timestamp := now }] } } : TwigletDoc)]).filter
      (fun row => row.data.name == sourceName) = src :: rest := by
    rw [List.filter_append, hsf]
    simp [hns]
  have hsrc2 : twigletByName
      { docs := db.docs ++
                  [{ _id := db.nextId, _rev := 1,
                     data :=
                       { name := newName, description := newDescription,
                         model := src.data.model, nodes := src.data.nodes,
                         links := src.data.links,
                         changelog := [{ message := commitMessage, user := actor,
                                         timestamp := now }] } }],
        nextId := db.nextId + 1 } sourceName = .ok src :=
    (twigletByName_ok_iff _ _ _).mpr ⟨rest, hf2⟩
  have hidne : db.nextId ≠ src._id := (Nat.ne_of_lt (hfresh src hsm)).symm
  have hupd : updateTwigletGraph
      { docs := db.docs ++
                  [{ _id := db.nextId, _rev := 1,
                     data :=
                       { name := newName, description := newDescription,
                         model := src.data.model, nodes := src.data.nodes,
                         links := src.data.links,
                         changelog := [{ message := commitMessage, user := actor,
                                         timestamp := now }] } }],
        nextId := db.nextId + 1 } sourceName src._rev newNodes newLinks msg2 act2 t2
      = .ok { docs := ((db.docs ++
                  [({ _id := db.nextId, _rev := 1,
                      data :=
                        { name := newName, description := newDescription,
                          model := src.data.model, nodes := src.data.nodes,
                          links := src.data.links,
                          changelog := [{ message := commitMessage, user := actor,
                                          timestamp := now }] } } : TwigletDoc)]).map
                (fun d => if d._id = src._id then
                  { src with
                      _rev := src._rev + 1,
                      data := { src.data with
                                  nodes := newNodes, links := newLinks,
                                  changelog := { message := msg2, user := act2, timestamp := t2 }
                                    :: src.data.changelog } } else d)),
              nextId := db.nextId + 1 } := by
    unfold updateTwigletGraph
    rw [hsrc2]
    dsimp only
    rw [if_pos rfl]
  refine ⟨_, hupd, (twigletByName_ok_iff _ _ _).mpr ⟨[], ?_⟩⟩
  rw [List.map_append]
  rw [List.filter_append]
  have h1 : ((db.docs.map (fun d => if d._id = src._id then
      { src with
          _rev := src._rev + 1,
          data := { src.data with
                      nodes := newNodes, links := newLinks,
                      changelog := { message := msg2, user := act2, timestamp := t2 }
                        :: src.data.changelog } } else d))).filter
      (fun row => row.data.name == newName) = [] := by
    rw [List.filter_eq_nil_iff]
    intro x hx hb
    rcases List.mem_map.mp hx with ⟨e, he, rfl⟩
    by_cases hc : e._id = src._id
    · rw [if_pos hc] at hb
      exact hnn (by simpa using hb)
    · rw [if_neg hc] at hb
      have hmf : e ∈ db.docs.filter (fun row => row.data.name == newName) :=
        List.mem_filter.mpr ⟨he, hb⟩
      rw [habsent] at hmf
      simp at hmf
  rw [h1]
  simp [hidne]

/-- A sample twiglet used by the clone witness: name "A", one node and one
link. -/
def exTwiglet : TwigletDoc :=
  { _id := 0, _rev := 3,
    data :=
      { name := "A", description := "base", model := "baseModel",
        nodes := ["node"], links := ["link"],
        changelog := [{ message := "created", user := "alice", timestamp := "t0" }] } }

/-- A twiglet store holding only `exTwiglet`. -/
def exTwigletDb : TwigletDb := { docs := [exTwiglet], nextId := 1 }

/-- Witness for C7: cloning twiglet "A" into "clone" and then replacing
the source's nodes and links leaves the clone intact. -/
theorem clone_isolation_witness :
    twigletByName exTwigletDb "A" = .ok exTwiglet ∧
    exTwigletDb.docs.filter (fun row => row.data.name == "clone") = [] ∧
    (∀ d ∈ exTwigletDb.docs, d._id < exTwigletDb.nextId) ∧
    (∃ db2 clone,
      cloneFrom exTwigletDb "A" "clone" "This was cloned" "cloned from A" "bob" "t1"
        = .ok (db2, clone) ∧
      clone.data.nodes = exTwiglet.data.nodes ∧
      clone.data.links = exTwiglet.data.links ∧
      clone.data.model = exTwiglet.data.model ∧
      clone.data.name = "clone" ∧
      clone.data.description = "This was cloned" ∧
      ∀ newNodes newLinks msg2 act2 t2,
        ∃ db3,
          updateTwigletGraph db2 "A" exTwiglet._rev newNodes newLinks msg2 act2 t2
            = .ok db3 ∧
          twigletByName db3 "clone" = .ok clone) :=
  ⟨by decide, by decide, by decide,
   clone_isolation exTwigletDb "A" "clone" "This was cloned" "cloned from A" "bob" "t1"
     exTwiglet (by decide) (by decide) (by decide)⟩

end TwigApi
